import Mathlib

/-!
Shallow embedding of `src/pkg/nuclide/flow-base/lib/FlowProcess.js`.

The file models the `FlowProcess` class: its `BehaviorSubject`-based status
channel (`_serverStatus`), the exit-code classifier (`_updateServerStatus`),
the retry loop (`execFlow`), the raw invocation (`_rawExecFlow`), the server
start/exit handling (`_startFlowServer`) and `dispose`.

Statuses are modelled as the literal strings the source uses
("unknown", "not running", "init", "busy", "ready", "failed",
"not installed").  The `BehaviorSubject` is modelled by its current value,
a completed flag, and the list of values delivered to subscribers so far
(Rx semantics: `onNext` after `onCompleted` is ignored; `getValue` keeps
returning the last value).  Spawned server subprocesses and `kill` signals
are recorded in the supervisor state so that claims about process spawning
and killing can be stated.  Logging is not modelled except for the
`logErrors` flag that `execFlow` threads into the error it rethrows.
-/

/-- Exit codes of the Flow binary, copied from `FLOW_RETURN_CODES`. -/
def FLOW_RETURN_CODES.ok : Int := 0

/-- Exit code for a server that is still initializing. -/
def FLOW_RETURN_CODES.serverInitializing : Int := 1

/-- Exit code for a run that found type errors. -/
def FLOW_RETURN_CODES.typeError : Int := 2

/-- Exit code when no server is running. -/
def FLOW_RETURN_CODES.noServerRunning : Int := 6

/-- Exit code when the server exists but is busy (out of retries). -/
def FLOW_RETURN_CODES.outOfRetries : Int := 7

/-- Exit code when the server was killed because of a version mismatch. -/
def FLOW_RETURN_CODES.buildIdMismatch : Int := 9

/-- The part of `process$asyncExecuteRet` that `FlowProcess` inspects. -/
structure ExecResult where
  exitCode : Int
deriving DecidableEq, Repr

/-- Model of an Rx `BehaviorSubject<ServerStatus>`: current value, terminal
flag, and the values delivered to subscribers so far (oldest first). -/
structure BehaviorSubject where
  value : String
  completed : Bool
  notifs : List String
deriving DecidableEq, Repr

/-- `onNext`: after `onCompleted` the subject ignores further values;
otherwise the value is stored and delivered.  Returns the new subject and
the value delivered to subscribers this call (if any). -/
def subjectNext (s : BehaviorSubject) (v : String) : BehaviorSubject × Option String :=
  if s.completed then (s, none)
  else (⟨v, false, s.notifs ++ [v]⟩, some v)

/-- `onCompleted`: marks the subject terminal. -/
def subjectCompleted (s : BehaviorSubject) : BehaviorSubject :=
  { s with completed := true }

/-- The mutable state of one `FlowProcess` instance.  `startedServer` is the
`_startedServer` field (a handle to the last spawned server, if any);
`serverStatus` is `_serverStatus`; `spawnCount` counts `safeSpawn` calls made
by `_startFlowServer`; `execCount` counts `asyncExecute` calls made by
`_rawExecFlow`; `kills` records the signals sent to owned subprocesses. -/
structure FlowProcessState where
  root : String
  startedServer : Option Nat
  serverStatus : BehaviorSubject
  spawnCount : Nat
  execCount : Nat
  kills : List String
deriving DecidableEq, Repr

/-- The constructor: status starts at "unknown", nothing spawned, and the
restart subscription (modelled inside `notifySubscribers`) is installed. -/
def mkFlowProcess (root : String) : FlowProcessState :=
  ⟨root, none, ⟨"unknown", false, []⟩, 0, 0, []⟩

/-- A concrete freshly constructed instance used in closed statements. -/
def initialState : FlowProcessState := mkFlowProcess "/project"

/-- The classification performed by `_updateServerStatus`: from a (possibly
null) result to the status assigned to the local `status` variable.  `none`
on the right would mean the local variable was never assigned, which is what
the source's `invariant(status != null)` rules out. -/
def classifyStatus : Option ExecResult → Option String
  | none => some "not installed"
  | some result =>
    if result.exitCode = FLOW_RETURN_CODES.ok ∨ result.exitCode = FLOW_RETURN_CODES.typeError then
      some "ready"
    else if result.exitCode = FLOW_RETURN_CODES.serverInitializing then
      some "init"
    else if result.exitCode = FLOW_RETURN_CODES.noServerRunning then
      some "not running"
    else if result.exitCode = FLOW_RETURN_CODES.outOfRetries then
      some "busy"
    else if result.exitCode = FLOW_RETURN_CODES.buildIdMismatch then
      some "not running"
    else
      some "unknown"

/-- Tail of `_updateServerStatus`: push the classified status into the
subject only when it differs from the current value.  Returns the new
subject and the notification delivered (if any). -/
def updateServerStatus (s : BehaviorSubject) (result : Option ExecResult) :
    BehaviorSubject × Option String :=
  match classifyStatus result with
  | none => (s, none)
  | some status =>
    if status ≠ s.value then subjectNext s status else (s, none)

/-- `_startFlowServer`: spawn a server process for the root and store the
handle in `_startedServer` (overwriting any previous handle). -/
def startFlowServer (st : FlowProcessState) : FlowProcessState :=
  { st with spawnCount := st.spawnCount + 1, startedServer := some st.spawnCount }

/-- The subscription installed by the constructor:
`_serverStatus.filter(x => x === 'not running').subscribe(() => this._startFlowServer())`.
Given the notification just delivered by the subject (if any), react. -/
def notifySubscribers (st : FlowProcessState) (delivered : Option String) : FlowProcessState :=
  if delivered = some "not running" then startFlowServer st else st

/-- External events that mutate a `FlowProcess`'s status channel. -/
inductive FlowEvent where
  | rawResult : Option ExecResult → FlowEvent
  | serverExit : Option Int → Option String → FlowEvent
  | disposeEv : FlowEvent
deriving DecidableEq, Repr

/-- One event step of the supervisor.
`rawResult r` is a call of `_updateServerStatus r` (from `_rawExecFlow`),
followed by the delivery of any notification to the restart subscriber.
`serverExit code signal` is the `'exit'` handler installed by
`_startFlowServer`: on `code === 2 && signal === null` it pushes "failed"
and completes the subject; any other exit does nothing.
`disposeEv` is `dispose()`: complete the subject, then SIGKILL the owned
server if there is one. -/
def step (st : FlowProcessState) : FlowEvent → FlowProcessState
  | .rawResult r =>
    let u := updateServerStatus st.serverStatus r
    notifySubscribers { st with serverStatus := u.1 } u.2
  | .serverExit code signal =>
    if code = some 2 ∧ signal = none then
      let u := subjectNext st.serverStatus "failed"
      let st1 := notifySubscribers { st with serverStatus := u.1 } u.2
      { st1 with serverStatus := subjectCompleted st1.serverStatus }
    else st
  | .disposeEv =>
    let st1 := { st with serverStatus := subjectCompleted st.serverStatus }
    if st.startedServer.isSome then { st1 with kills := st1.kills ++ ["SIGKILL"] } else st1

/-- Run a sequence of events from a state. -/
def run (st : FlowProcessState) : List FlowEvent → FlowProcessState
  | [] => st
  | e :: es => run (step st e) es

/-- The environment's behaviour for one `_rawExecFlow` attempt:
either Flow is not installed (`_getFlowExecOptions` returned null), or
`asyncExecute` resolved with a result, or it threw a value `e`. -/
inductive AttemptOutcome where
  | notInstalled : AttemptOutcome
  | success : ExecResult → AttemptOutcome
  | failure : Option ExecResult → AttemptOutcome
deriving DecidableEq, Repr

/-- Result of one `_rawExecFlow` call: resolved with a (nullable) result,
or rejected with the thrown value. -/
inductive RawOutcome where
  | ok : Option ExecResult → RawOutcome
  | error : Option ExecResult → RawOutcome
deriving DecidableEq, Repr

/-- `_rawExecFlow`: if Flow is not installed, return null without running
anything (no status update, no process); otherwise run `asyncExecute`
(counted in `execCount`), feed the outcome into `_updateServerStatus`
(which may trigger the restart subscriber), and return/rethrow. -/
def rawExecFlow (st : FlowProcessState) : AttemptOutcome → FlowProcessState × RawOutcome
  | .notInstalled => (st, .ok none)
  | .success r =>
    (step { st with execCount := st.execCount + 1 } (.rawResult (some r)), .ok (some r))
  | .failure e =>
    (step { st with execCount := st.execCount + 1 } (.rawResult e), .error e)

/-- The statuses for which a failed attempt is retried
(`['not running', 'init', 'busy'].indexOf(...) !== -1`). -/
def retryStatuses : List String := ["not running", "init", "busy"]

/-- `const maxTries = 5`. -/
def maxTries : Nat := 5

/-- What an `execFlow` call produces: a resolved (nullable) result, a
rethrown error together with whether it was logged, or `outOfFuel` when the
supplied environment trace is shorter than the loop would run (never the
case in the statements below). -/
inductive ExecFlowResult where
  | ok : Option ExecResult → ExecFlowResult
  | err : Option ExecResult → Bool → ExecFlowResult
  | outOfFuel : ExecFlowResult
deriving DecidableEq, Repr

/-- The `for (let i = 0; ; i++)` loop of `execFlow`.  Each list element is
the environment's behaviour for one `_rawExecFlow` attempt.  Returns the
final state, the produced result, and the number of `_rawExecFlow`
invocations performed. -/
def execFlowGo (logErrors : Bool) :
    List AttemptOutcome → FlowProcessState → Nat → FlowProcessState × ExecFlowResult × Nat
  | [], st, _ => (st, .outOfFuel, 0)
  | a :: rest, st, i =>
    match rawExecFlow st a with
    | (st1, .ok r) => (st1, .ok r, 1)
    | (st1, .error e) =>
      if i < maxTries ∧ retryStatuses.contains st1.serverStatus.value then
        let next := execFlowGo logErrors rest st1 (i + 1)
        (next.1, next.2.1, next.2.2 + 1)
      else
        (st1, .err e logErrors, 1)

/-- `execFlow`: return null immediately when the status is already
"failed"; otherwise run the retry loop starting at `i = 0`. -/
def execFlow (st : FlowProcessState) (outcomes : List AttemptOutcome) (logErrors : Bool) :
    FlowProcessState × ExecFlowResult × Nat :=
  if st.serverStatus.value = "failed" then (st, .ok none, 0)
  else execFlowGo logErrors outcomes st 0

/-! ### Helper lemmas -/

/-- The classifier assigns a status to every input. -/
lemma classify_isSome (r : Option ExecResult) : (classifyStatus r).isSome = true := by
  rcases r with _ | ⟨c⟩
  · rfl
  · simp only [classifyStatus]
    split_ifs <;> rfl

/-- The classifier never assigns "failed": only the server-exit handler does. -/
lemma classify_ne_failed (r : Option ExecResult) (s : String)
    (h : classifyStatus r = some s) : s ≠ "failed" := by
  intro hs
  subst hs
  rcases r with _ | ⟨c⟩
  · exact absurd h (by decide)
  · simp only [classifyStatus] at h
    split_ifs at h <;> exact absurd h (by decide)

/-- Delivering a notification to the restart subscriber does not touch the
status subject itself. -/
lemma notifySubscribers_serverStatus (st : FlowProcessState) (d : Option String) :
    (notifySubscribers st d).serverStatus = st.serverStatus := by
  unfold notifySubscribers startFlowServer
  split <;> rfl

/-- The restart subscriber spawns exactly on a delivered "not running". -/
lemma notifySubscribers_spawnCount (st : FlowProcessState) (d : Option String) :
    (notifySubscribers st d).spawnCount =
      if d = some "not running" then st.spawnCount + 1 else st.spawnCount := by
  unfold notifySubscribers startFlowServer
  split <;> rfl

/-- Characterization of `_updateServerStatus` on the subject: either it is a
no-op (same value, or subject completed), or it appends exactly the
classified status, which differs from the current value and is never
"failed". -/
lemma updateServerStatus_spec (s : BehaviorSubject) (r : Option ExecResult) :
    updateServerStatus s r = (s, none)
    ∨ ∃ status, classifyStatus r = some status ∧ status ≠ s.value ∧ s.completed = false
        ∧ status ≠ "failed"
        ∧ updateServerStatus s r = (⟨status, false, s.notifs ++ [status]⟩, some status) := by
  unfold updateServerStatus
  cases hc : classifyStatus r with
  | none => exact Or.inl rfl
  | some status =>
    by_cases hne : status = s.value
    · left
      simp [hne]
    · by_cases hcomp : s.completed = true
      · left
        simp [hne, subjectNext, hcomp]
      · right
        refine ⟨status, rfl, hne, by simpa using hcomp, classify_ne_failed r status hc, ?_⟩
        simp [hne, subjectNext, hcomp]

/-- Appending a value different from the last element preserves the
no-adjacent-duplicates chain. -/
lemma chain'_ne_concat {l : List String} {a v : String}
    (hc : List.Chain' (fun x y => x ≠ y) ("unknown" :: l))
    (hl : ("unknown" :: l).getLast? = some a) (hne : a ≠ v) :
    List.Chain' (fun x y => x ≠ y) ("unknown" :: (l ++ [v])) := by
  rw [← List.cons_append, List.chain'_append]
  refine ⟨hc, List.chain'_singleton v, ?_⟩
  intro x hx y hy
  rw [hl] at hx
  simp only [Option.mem_def, Option.some.injEq, List.head?_cons] at hx hy
  subst hx
  subst hy
  exact hne

/-- Appending to the notification history moves the last element. -/
lemma getLast?_concat_cons (x : String) (l : List String) (v : String) :
    (x :: (l ++ [v])).getLast? = some v := by
  rw [← List.cons_append, List.getLast?_append_of_ne_nil _ (by simp)]
  rfl

/-! ### Status-channel invariants -/

/-- Invariant of the status subject along any run: the current value is the
last delivered value (or the initial "unknown"), the value is "failed" only
once the subject is completed, and the delivery history never repeats a
value twice in a row. -/
def SubjInv (s : BehaviorSubject) : Prop :=
  ("unknown" :: s.notifs).getLast? = some s.value
  ∧ (s.value = "failed" → s.completed = true)
  ∧ List.Chain' (fun x y => x ≠ y) ("unknown" :: s.notifs)

lemma mkFlowProcess_subjInv (root : String) : SubjInv (mkFlowProcess root).serverStatus :=
  ⟨rfl, by simp [mkFlowProcess], List.chain'_singleton "unknown"⟩

lemma step_subjInv (st : FlowProcessState) (e : FlowEvent) (h : SubjInv st.serverStatus) :
    SubjInv (step st e).serverStatus := by
  obtain ⟨h1, h2, h3⟩ := h
  cases e with
  | rawResult r =>
    rcases updateServerStatus_spec st.serverStatus r with hu | ⟨status, hc, hne, hcomp, hnf, hu⟩
    · simpa [step, notifySubscribers_serverStatus, hu] using ⟨h1, h2, h3⟩
    · simp only [step, notifySubscribers_serverStatus, hu]
      refine ⟨getLast?_concat_cons _ _ _, fun hf => absurd hf hnf, ?_⟩
      exact chain'_ne_concat h3 h1 (fun hv => hne hv.symm)
  | serverExit code signal =>
    by_cases hcr : code = some 2 ∧ signal = none
    · simp only [step, if_pos hcr, notifySubscribers_serverStatus]
      by_cases hcomp : st.serverStatus.completed = true
      · simpa [subjectNext, hcomp, subjectCompleted] using ⟨h1, fun _ => rfl, h3⟩
      · have hvne : st.serverStatus.value ≠ "failed" := fun hv => hcomp (h2 hv)
        simp only [subjectNext, hcomp, Bool.false_eq_true, if_false, subjectCompleted]
        exact ⟨getLast?_concat_cons _ _ _, fun _ => rfl, chain'_ne_concat h3 h1 hvne⟩
    · simpa [step, if_neg hcr] using ⟨h1, h2, h3⟩
  | disposeEv =>
    by_cases hso : st.startedServer.isSome
    · simpa [step, hso, subjectCompleted] using ⟨h1, fun _ => rfl, h3⟩
    · simpa [step, hso, subjectCompleted] using ⟨h1, fun _ => rfl, h3⟩

lemma run_subjInv (es : List FlowEvent) :
    ∀ st : FlowProcessState, SubjInv st.serverStatus → SubjInv (run st es).serverStatus := by
  induction es with
  | nil => exact fun st h => h
  | cons e es ih => exact fun st h => ih (step st e) (step_subjInv st e h)

/-- Invariant: the number of server spawns equals the number of delivered
"not running" notifications. -/
def SpawnInv (st : FlowProcessState) : Prop :=
  st.spawnCount = st.serverStatus.notifs.count "not running"

lemma step_spawnInv (st : FlowProcessState) (e : FlowEvent) (h : SpawnInv st) :
    SpawnInv (step st e) := by
  unfold SpawnInv at h ⊢
  cases e with
  | rawResult r =>
    rcases updateServerStatus_spec st.serverStatus r with hu | ⟨status, hc, hne, hcomp, hnf, hu⟩
    · simpa [step, hu, notifySubscribers] using h
    · by_cases hnr : status = "not running"
      · simp [step, hu, notifySubscribers_serverStatus, notifySubscribers_spawnCount, hnr,
          List.count_append, List.count_cons, h]
      · simp [step, hu, notifySubscribers_serverStatus, notifySubscribers_spawnCount, hnr,
          List.count_append, List.count_cons, h, Ne.symm hnr]
  | serverExit code signal =>
    by_cases hcr : code = some 2 ∧ signal = none
    · by_cases hcomp : st.serverStatus.completed = true
      · simpa [step, if_pos hcr, subjectNext, hcomp, notifySubscribers, subjectCompleted] using h
      · simp [step, if_pos hcr, subjectNext, hcomp, notifySubscribers, subjectCompleted,
          List.count_append, List.count_cons, h]
    · simpa [step, if_neg hcr] using h
  | disposeEv =>
    by_cases hso : st.startedServer.isSome
    · simpa [step, hso, subjectCompleted] using h
    · simpa [step, hso, subjectCompleted] using h

lemma run_spawnInv (es : List FlowEvent) :
    ∀ st : FlowProcessState, SpawnInv st → SpawnInv (run st es) := by
  induction es with
  | nil => exact fun st h => h
  | cons e es ih => exact fun st h => ih (step st e) (step_spawnInv st e h)

/-- Once the subject is completed, no event changes the delivery history. -/
lemma step_notifs_of_completed (st : FlowProcessState) (e : FlowEvent)
    (h : st.serverStatus.completed = true) :
    (step st e).serverStatus.notifs = st.serverStatus.notifs := by
  cases e with
  | rawResult r =>
    rcases updateServerStatus_spec st.serverStatus r with hu | ⟨status, hc, hne, hcomp, hnf, hu⟩
    · simp [step, hu, notifySubscribers_serverStatus]
    · rw [h] at hcomp
      exact absurd hcomp (by decide)
  | serverExit code signal =>
    by_cases hcr : code = some 2 ∧ signal = none
    · simp [step, if_pos hcr, subjectNext, h, notifySubscribers_serverStatus, subjectCompleted]
    · simp [step, if_neg hcr]
  | disposeEv =>
    by_cases hso : st.startedServer.isSome
    · simp [step, hso, subjectCompleted]
    · simp [step, hso, subjectCompleted]

/-- Once the subject is completed, it stays completed. -/
lemma step_completed_of_completed (st : FlowProcessState) (e : FlowEvent)
    (h : st.serverStatus.completed = true) :
    (step st e).serverStatus.completed = true := by
  cases e with
  | rawResult r =>
    rcases updateServerStatus_spec st.serverStatus r with hu | ⟨status, hc, hne, hcomp, hnf, hu⟩
    · simp [step, hu, notifySubscribers_serverStatus, h]
    · rw [h] at hcomp
      exact absurd hcomp (by decide)
  | serverExit code signal =>
    by_cases hcr : code = some 2 ∧ signal = none
    · simp [step, if_pos hcr, subjectNext, h, notifySubscribers_serverStatus, subjectCompleted]
    · simp [step, if_neg hcr, h]
  | disposeEv =>
    by_cases hso : st.startedServer.isSome
    · simp [step, hso, subjectCompleted]
    · simp [step, hso, subjectCompleted]

/-! ### Retry-loop bound -/

/-- Bound on the number of `_rawExecFlow` invocations the loop performs when
entered at iteration index `i`. -/
lemma execFlowGo_le (logErrors : Bool) (outcomes : List AttemptOutcome) :
    ∀ (st : FlowProcessState) (i : Nat), i ≤ maxTries →
      (execFlowGo logErrors outcomes st i).2.2 ≤ maxTries + 1 - i := by
  induction outcomes with
  | nil =>
    intro st i hi
    simp [execFlowGo]
  | cons a rest ih =>
    intro st i hi
    unfold execFlowGo
    cases hr : rawExecFlow st a with
    | mk st1 out =>
      cases out with
      | ok r =>
        simp only []
        omega
      | error e =>
        simp only []
        by_cases hretry : i < maxTries ∧ retryStatuses.contains st1.serverStatus.value = true
        · rw [if_pos hretry]
          have := ih st1 (i + 1) (by omega)
          simp only []
          omega
        · rw [if_neg hretry]
          simp only []
          omega

/-! ### Claim theorems -/

/-- Claim C1 (amended): `execFlow` performs at most 6 raw invocations in
total — the loop retries a failure at iteration `i` whenever `i < 5` and the
status observed at the failure is retryable, so iteration indices 0..5 can
each run one `_rawExecFlow` — and a command that fails 4 times with status
"busy" and succeeds on the 5th attempt returns that success result after
exactly 5 raw invocations. -/
theorem execFlow_attempt_ceiling :
    (∀ (st : FlowProcessState) (outcomes : List AttemptOutcome) (logErrors : Bool),
      (execFlow st outcomes logErrors).2.2 ≤ 6)
    ∧ (execFlow initialState
        [.failure (some ⟨7⟩), .failure (some ⟨7⟩), .failure (some ⟨7⟩), .failure (some ⟨7⟩),
          .success ⟨0⟩] true).2.1 = .ok (some ⟨0⟩)
    ∧ (execFlow initialState
        [.failure (some ⟨7⟩), .failure (some ⟨7⟩), .failure (some ⟨7⟩), .failure (some ⟨7⟩),
          .success ⟨0⟩] true).2.2 = 5 := by
  refine ⟨?_, by decide, by decide⟩
  intro st outcomes logErrors
  unfold execFlow
  by_cases hf : st.serverStatus.value = "failed"
  · rw [if_pos hf]
    simp
  · rw [if_neg hf]
    have h := execFlowGo_le logErrors outcomes st 0 (by simp [maxTries])
    simpa [maxTries] using h

/-- Claim C1 counterexample: a command that keeps failing with status "busy"
(exit code 7) is invoked 6 times, not at most 5. -/
theorem execFlow_six_raw_invocations :
    ¬ ((execFlow initialState (List.replicate 6 (.failure (some ⟨7⟩))) true).2.2 ≤ 5) := by
  decide

/-- Claim C2: `_updateServerStatus` reproduces the classification table
exactly: null ↦ "not installed", 0/2 ↦ "ready", 1 ↦ "init",
6 ↦ "not running", 7 ↦ "busy", 9 ↦ "not running", anything else ↦
"unknown". -/
theorem updateServerStatus_classification_table :
    classifyStatus none = some "not installed"
    ∧ ∀ c : Int, classifyStatus (some ⟨c⟩) =
        some (if c = 0 ∨ c = 2 then "ready"
          else if c = 1 then "init"
          else if c = 6 then "not running"
          else if c = 7 then "busy"
          else if c = 9 then "not running"
          else "unknown") := by
  refine ⟨rfl, fun c => ?_⟩
  simp only [classifyStatus, FLOW_RETURN_CODES.ok, FLOW_RETURN_CODES.typeError,
    FLOW_RETURN_CODES.serverInitializing, FLOW_RETURN_CODES.noServerRunning,
    FLOW_RETURN_CODES.outOfRetries, FLOW_RETURN_CODES.buildIdMismatch]
  split_ifs <;> rfl

/-- Claim C3: a server exit with code 2 and no signal (a crash) sets the
status to "failed" and completes the channel, while a manual-kill exit
(null code, SIGTERM signal) leaves the state exactly unchanged. -/
theorem crash_sets_failed_and_completes (st : FlowProcessState)
    (h : st.serverStatus.completed = false) :
    ((step st (.serverExit (some 2) none)).serverStatus.value = "failed"
      ∧ (step st (.serverExit (some 2) none)).serverStatus.completed = true)
    ∧ step st (.serverExit none (some "SIGTERM")) = st := by
  constructor
  · constructor <;>
      simp [step, subjectNext, h, notifySubscribers_serverStatus, subjectCompleted]
  · simp [step]

/-- Witness for C3 at a freshly constructed supervisor. -/
theorem crash_sets_failed_and_completes_witness :
    initialState.serverStatus.completed = false
    ∧ (((step initialState (.serverExit (some 2) none)).serverStatus.value = "failed"
      ∧ (step initialState (.serverExit (some 2) none)).serverStatus.completed = true)
    ∧ step initialState (.serverExit none (some "SIGTERM")) = initialState) :=
  ⟨rfl, crash_sets_failed_and_completes initialState rfl⟩

/-- Claim C4: when the current status is "failed", `execFlow` returns null
immediately: the state is untouched and zero `_rawExecFlow` invocations are
performed. -/
theorem execFlow_failed_fast_path (st : FlowProcessState) (outcomes : List AttemptOutcome)
    (logErrors : Bool) (h : st.serverStatus.value = "failed") :
    execFlow st outcomes logErrors = (st, .ok none, 0) := by
  unfold execFlow
  rw [if_pos h]

/-- Witness for C4 at the state reached after a server crash. -/
theorem execFlow_failed_fast_path_witness :
    (run initialState [.serverExit (some 2) none]).serverStatus.value = "failed"
    ∧ execFlow (run initialState [.serverExit (some 2) none]) [.success ⟨0⟩] true
        = (run initialState [.serverExit (some 2) none], .ok none, 0) :=
  ⟨by decide, execFlow_failed_fast_path _ _ _ (by decide)⟩

/-- Claim C5 (amended): when Flow is not installed, `_rawExecFlow` returns
null without running anything and leaves the whole supervisor state —
including the status — unchanged; no "not installed" status update is
performed on this path. -/
theorem rawExecFlow_not_installed_no_op (st : FlowProcessState) :
    rawExecFlow st .notInstalled = (st, .ok none) :=
  rfl

/-- Claim C5 counterexample: on a fresh supervisor, the not-installed path
returns null but the status remains "unknown" rather than becoming
"not installed". -/
theorem rawExecFlow_not_installed_status_unchanged :
    (rawExecFlow initialState .notInstalled).2 = .ok none
    ∧ (rawExecFlow initialState .notInstalled).1.serverStatus.value ≠ "not installed" := by
  decide

/-- Claim C6: over every sequence of events (command classifications,
server exits, disposal), the sequence of values delivered to subscribers
never repeats a value twice in a row — each delivered status differs from
the channel's value at delivery time. -/
theorem status_channel_dedup (events : List FlowEvent) :
    List.Chain' (fun x y => x ≠ y)
      ("unknown" :: (run initialState events).serverStatus.notifs) :=
  (run_subjInv events initialState (mkFlowProcess_subjInv "/project")).2.2

/-- Claim C7: a failed attempt whose observed status is not retryable is
rethrown immediately as the first and only raw invocation (carrying the
`logErrors` flag), and a successful attempt returns its result immediately
at any iteration. -/
theorem execFlow_rethrow_nonretryable :
    (∀ (st : FlowProcessState) (rest : List AttemptOutcome) (e : Option ExecResult)
        (logErrors : Bool),
      retryStatuses.contains (rawExecFlow st (.failure e)).1.serverStatus.value = false →
      execFlowGo logErrors (.failure e :: rest) st 0 =
        ((rawExecFlow st (.failure e)).1, .err e logErrors, 1))
    ∧ (∀ (st : FlowProcessState) (rest : List AttemptOutcome) (r : ExecResult)
        (logErrors : Bool) (i : Nat),
      execFlowGo logErrors (.success r :: rest) st i =
        ((rawExecFlow st (.success r)).1, .ok (some r), 1)) := by
  constructor
  · intro st rest e logErrors h
    simp only [rawExecFlow] at h ⊢
    unfold execFlowGo
    simp only [rawExecFlow]
    rw [if_neg (fun hx => by rw [h] at hx; exact absurd hx.2 (by decide))]
  · intro st rest r logErrors i
    rfl

/-- Witness for C7: a failure classified "unknown" (exit code 3) on a fresh
supervisor is rethrown after exactly one raw invocation. -/
theorem execFlow_rethrow_nonretryable_witness :
    retryStatuses.contains
        (rawExecFlow initialState (.failure (some ⟨3⟩))).1.serverStatus.value = false
    ∧ execFlowGo true [.failure (some ⟨3⟩)] initialState 0 =
        ((rawExecFlow initialState (.failure (some ⟨3⟩))).1, .err (some ⟨3⟩) true, 1) :=
  ⟨by decide, execFlow_rethrow_nonretryable.1 initialState [] (some ⟨3⟩) true (by decide)⟩

/-- Claim C8 (amended): every delivered "not running" notification triggers
exactly one `_startFlowServer` spawn (spawn count = number of "not running"
deliveries), and two consecutive identical "not running" updates are
deduplicated into a single delivery, hence a single spawn; there is no
further guard, so non-adjacent "not running" observations each spawn. -/
theorem restart_per_observation :
    (∀ events : List FlowEvent,
      (run initialState events).spawnCount =
        (run initialState events).serverStatus.notifs.count "not running")
    ∧ (run initialState [.rawResult (some ⟨6⟩), .rawResult (some ⟨6⟩)]).spawnCount = 1 :=
  ⟨fun events => run_spawnInv events initialState rfl, by decide⟩

/-- Claim C8 counterexample: the status sequence "not running", "busy",
"not running" delivers two "not running" observations and spawns two
subprocesses — there is no in-flight guard preventing the second spawn. -/
theorem restart_double_spawn :
    (run initialState
        [.rawResult (some ⟨6⟩), .rawResult (some ⟨7⟩), .rawResult (some ⟨6⟩)]).serverStatus.notifs
      = ["not running", "busy", "not running"]
    ∧ (run initialState
        [.rawResult (some ⟨6⟩), .rawResult (some ⟨7⟩), .rawResult (some ⟨6⟩)]).spawnCount = 2 := by
  decide

/-- Claim C9: `dispose` completes the status channel, sends exactly one
SIGKILL if and only if a subprocess is owned, and afterwards no event can
deliver any further notification to subscribers. -/
theorem dispose_completes_and_sigkills (st : FlowProcessState) :
    (step st .disposeEv).serverStatus.completed = true
    ∧ (step st .disposeEv).kills =
        st.kills ++ (if st.startedServer.isSome then ["SIGKILL"] else [])
    ∧ ∀ e : FlowEvent,
        (step (step st .disposeEv) e).serverStatus.notifs =
          (step st .disposeEv).serverStatus.notifs := by
  have hc : (step st .disposeEv).serverStatus.completed = true := by
    by_cases hso : st.startedServer.isSome <;> simp [step, hso, subjectCompleted]
  refine ⟨hc, ?_, fun e => step_notifs_of_completed _ e hc⟩
  by_cases hso : st.startedServer.isSome <;> simp [step, hso, subjectCompleted]

/-- Claim C10: the exit-outcome classifier is total — every input, null or
any exit code, is assigned some status, so `invariant(status != null)` can
never fail. -/
theorem classifyStatus_total (r : Option ExecResult) : (classifyStatus r).isSome = true :=
  classify_isSome r
